import Mathlib

/-!
Shallow embedding of the NCM container parser and decryption pipeline from
`src/ncmdump.rs`, together with the external collaborators it uses
(block-cipher ECB decrypt, base64 decode, UTF-8 decode, JSON parse), which the
design treats as out-of-scope primitives and which are modelled here as oracle
function parameters.  Bytes are modelled as `Nat` values; reads and seeks on
the underlying seekable source use in-memory cursor semantics (a read returns
`min n remaining` bytes and advances the position by the number of bytes
actually read; seeks may move past the end without error).  Machine integers
are widened to `Nat`; the native endianness of length fields is modelled as
little-endian.  A Rust panic (out-of-bounds slice index) is modelled
explicitly by the `RunResult.panicked` outcome.
-/

namespace Ncm

/-- Modelled from the spec: the error kinds of `src/error.rs`, which is not among
the provided sources.  `InvalidFileType`, `InvalidKeyLength`, `InvalidInfoLength`,
`InvalidImageLength` and `InfoDecodeError` are named directly in `src/ncmdump.rs`;
`DecryptError` models the "generic decode failure" that the block-cipher
primitive in `src/decrypt.rs` surfaces when it rejects a ciphertext (spec section 7). -/
inductive Errors where
  | InvalidFileType
  | InvalidKeyLength
  | InvalidInfoLength
  | InvalidImageLength
  | InfoDecodeError
  | DecryptError
deriving DecidableEq, Repr

/-- The music information record, mirroring `struct NcmInfo`.  The on-wire field
renames (musicName to name, musicId to id, mvId to mv_id) live in the external
JSON-parsing collaborator, which is modelled as an oracle producing this record. -/
structure NcmInfo where
  name : String
  id : Nat
  album : String
  artist : List (String × Nat)
  bitrate : Nat
  duration : Nat
  format : String
  mv_id : Option Nat
  «alias» : Option (List String)
deriving DecidableEq, Repr

/-- The section descriptors held by `Ncmdump`: `(start, length)` for the key,
metadata and image blocks. -/
structure Handle where
  key : Nat × Nat
  info : Nat × Nat
  image : Nat × Nat
deriving DecidableEq, Repr

/-- The seekable byte source together with its current read position. -/
structure Reader where
  src : List Nat
  pos : Nat
deriving DecidableEq, Repr

/-- Outcome of running a fallible extraction: a Rust panic, an error return, or
a successful value. -/
inductive RunResult (α : Type) where
  | panicked : RunResult α
  | err : Errors → RunResult α
  | ok : α → RunResult α
deriving DecidableEq, Repr

/-- Decode a little-endian byte list as an unsigned integer (byte 0 is least
significant), modelling `u64::from_ne_bytes` / `u32::from_ne_bytes` on a
little-endian machine. -/
def u64_from_le_bytes (l : List Nat) : Nat :=
  l.foldr (fun b acc => b + 256 * acc) 0

/-- Embeds `Ncmdump::check_format`: take the first 8 bytes of the buffer,
decode them native-endian, and compare with the magic constant. -/
def check_format (buffer : List Nat) : Bool :=
  u64_from_le_bytes (buffer.take 8) == 0x4d4144464e455443

/-- Embeds `Ncmdump::get_length`: decode a 4-byte buffer as a `u32`, widened
to `u64`. -/
def get_length (buffer : List Nat) : Nat :=
  u64_from_le_bytes (buffer.take 4)

/-- Read up to `n` bytes at the current position (cursor semantics of
`Read::read` into an `n`-byte buffer combined with the `read_size` the caller
inspects): returns the bytes actually available and advances the position by
that many. -/
def r_take_read (r : Reader) (n : Nat) : List Nat × Reader :=
  let bytes := (r.src.drop r.pos).take n
  (bytes, ⟨r.src, r.pos + bytes.length⟩)

/-- Seek to an absolute position (`SeekFrom::Start`). -/
def r_seek (r : Reader) (p : Nat) : Reader :=
  ⟨r.src, p⟩

/-- Seek forward by a non-negative relative offset (`SeekFrom::Current` with the
non-negative deltas used by `from_reader`). -/
def r_seek_cur (r : Reader) (n : Nat) : Reader :=
  ⟨r.src, r.pos + n⟩

/-- Read all remaining bytes (`read_to_end`). -/
def r_read_to_end (r : Reader) : List Nat × Reader :=
  (r.src.drop r.pos, ⟨r.src, r.src.length⟩)

/-- Embeds `Ncmdump::from_reader`: validate the 10-byte header, then walk the
length-prefixed key, metadata and image sections, recording each section's
start offset and length.  Returns the section descriptors together with the
reader in its final state. -/
def from_reader (r0 : Reader) : Except Errors (Handle × Reader) :=
  let fr := r_take_read r0 10
  if fr.1.length = 10 ∧ check_format fr.1 = true then
    let kr := r_take_read fr.2 4
    if kr.1.length = 4 then
      let key_start := kr.2.pos
      let key_length := get_length kr.1
      let r3 := r_seek_cur kr.2 key_length
      let ir := r_take_read r3 4
      if ir.1.length = 4 then
        let info_start := ir.2.pos
        let info_length := get_length ir.1
        let r5 := r_seek_cur (r_seek_cur ir.2 info_length) 9
        let mr := r_take_read r5 4
        if mr.1.length = 4 then
          let image_start := mr.2.pos
          let image_length := get_length mr.1
          Except.ok (⟨(key_start, key_length), (info_start, info_length),
            (image_start, image_length)⟩, mr.2)
        else Except.error Errors.InvalidImageLength
      else Except.error Errors.InvalidInfoLength
    else Except.error Errors.InvalidKeyLength
  else Except.error Errors.InvalidFileType

/-- Embeds `Ncmdump::get_bytes`: seek to the absolute offset `start` and read up
to `length` bytes. -/
def get_bytes (r : Reader) (start length : Nat) : List Nat × Reader :=
  r_take_read (r_seek r start) length

/-- Rust slice-from-index semantics: `&v[i..]` yields the suffix from `i` when
`i` is at most the length and panics otherwise. -/
def sliceFrom (l : List Nat) (i : Nat) : Option (List Nat) :=
  if i ≤ l.length then some (l.drop i) else none

/-- The value-level chain of `Ncmdump::get_key` on the bytes of the key block:
XOR every byte with `0x64`, decrypt with the block-cipher primitive under the
fixed header key (oracle `dec_h`, standing for `decrypt(.., HEADER_KEY)` from
the out-of-scope `src/decrypt.rs`), then take `decrypt_buffer[17..]`. -/
def get_key_chain (dec_h : List Nat → Option (List Nat)) (key : List Nat) :
    RunResult (List Nat) :=
  let key_buffer := key.map (fun b => Nat.xor b 0x64)
  match dec_h key_buffer with
  | none => RunResult.err Errors.DecryptError
  | some decrypt_buffer =>
    match sliceFrom decrypt_buffer 17 with
    | none => RunResult.panicked
    | some t => RunResult.ok t

/-- Embeds `Ncmdump::get_key`: read `key.length` bytes at `key.start` and run
the key chain. -/
def get_key_st (dec_h : List Nat → Option (List Nat)) (r : Reader) (h : Handle) :
    RunResult (List Nat) × Reader :=
  let b := get_bytes r h.key.1 h.key.2
  (get_key_chain dec_h b.1, b.2)

/-- The value-level chain of `Ncmdump::get_info` on the bytes of the metadata
block: XOR every byte with `0x63`, slice `info_tmp[22..]`, base64-decode
(oracle `b64`), decrypt under the fixed info key (oracle `dec_i`, standing for
`decrypt(.., INFO_KEY)`), slice `info_data[6..]`, decode UTF-8 (oracle `u8`)
and parse the JSON record (oracle `js`).  Base64, UTF-8 and JSON failures are
mapped to `InfoDecodeError`; the decrypt failure is propagated unmapped. -/
def get_info_chain (b64 : List Nat → Option (List Nat))
    (dec_i : List Nat → Option (List Nat)) (u8 : List Nat → Option String)
    (js : String → Option NcmInfo) (info_bytes : List Nat) : RunResult NcmInfo :=
  let info_tmp := info_bytes.map (fun b => Nat.xor b 0x63)
  match sliceFrom info_tmp 22 with
  | none => RunResult.panicked
  | some t22 =>
    match b64 t22 with
    | none => RunResult.err Errors.InfoDecodeError
    | some info_key =>
      match dec_i info_key with
      | none => RunResult.err Errors.DecryptError
      | some info_data =>
        match sliceFrom info_data 6 with
        | none => RunResult.panicked
        | some t6 =>
          match u8 t6 with
          | none => RunResult.err Errors.InfoDecodeError
          | some info_str =>
            match js info_str with
            | none => RunResult.err Errors.InfoDecodeError
            | some info => RunResult.ok info

/-- Embeds `Ncmdump::get_info`: read `info.length` bytes at `info.start` and run
the metadata chain. -/
def get_info_st (b64 : List Nat → Option (List Nat))
    (dec_i : List Nat → Option (List Nat)) (u8 : List Nat → Option String)
    (js : String → Option NcmInfo) (r : Reader) (h : Handle) :
    RunResult NcmInfo × Reader :=
  let b := get_bytes r h.info.1 h.info.2
  (get_info_chain b64 dec_i u8 js b.1, b.2)

/-- Embeds `Ncmdump::get_image`: read `image.length` raw bytes at `image.start`,
no transformation. -/
def get_image_st (r : Reader) (h : Handle) : List Nat × Reader :=
  get_bytes r h.image.1 h.image.2

/-- One keystream byte of the cipher in `get_data`, as a function of the chunk
index expression `j`: `key_box[(key_box[j] + key_box[(key_box[j] + j) & 0xff]) & 0xff] as u8`. -/
def keystreamByte (k : Nat → Nat) (j : Nat) : Nat :=
  k ((k j + k ((k j + j) % 256)) % 256) % 256

/-- The body applied to each 0x8000-byte chunk in `get_data`:
`i.iter().enumerate().map(|(index, item)| item ^ keystream((index + 1) & 0xff))`. -/
def encryptChunk (k : Nat → Nat) (chunk : List Nat) : List Nat :=
  chunk.enum.map (fun p => Nat.xor p.2 (keystreamByte k ((p.1 + 1) % 256)))

/-- `data.chunks(0x8000)`: split a list into consecutive chunks of 0x8000 bytes,
the last one possibly shorter; the empty list yields no chunks. -/
def chunks8000 (l : List Nat) : List (List Nat) :=
  match l with
  | [] => []
  | x :: xs => ((x :: xs).take 0x8000) :: chunks8000 ((x :: xs).drop 0x8000)
termination_by l.length
decreasing_by
  simp only [List.length_drop, List.length_cons]
  omega

/-- The keystream cipher of `get_data` exactly as implemented: chunk the payload
into 0x8000-byte windows and XOR each byte with the keystream byte derived from
its chunk-local index. -/
def get_data_core (k : Nat → Nat) (data : List Nat) : List Nat :=
  ((chunks8000 data).map (encryptChunk k)).flatten

/-- Modelled from the spec: one step of the key-scheduling pass of
`build_key_box`, which is defined in `src/decrypt.rs`, not among the provided
sources.  Per spec section 4.3 step `i` updates the accumulator
`j := (j + table[i] + raw_key[i mod key_len]) mod 256` and swaps `table[i]`
with `table[j]`; the table is represented as a function on `Nat`. -/
def kbox_step (raw_key : List Nat) (st : (Nat → Nat) × Nat) (i : Nat) :
    (Nat → Nat) × Nat :=
  let box := st.1
  let j := (st.2 + box i + raw_key.getD (i % raw_key.length) 0) % 256
  (fun t => if t = i then box j else if t = j then box i else box t, j)

/-- Modelled from the spec: `build_key_box` from `src/decrypt.rs` (absent from
the sources) initializes the identity table on 0..255 and runs the single
key-scheduling pass of `kbox_step` for `i` from 0 to 255. -/
def build_key_box (raw_key : List Nat) : Nat → Nat :=
  ((List.range 256).foldl (kbox_step raw_key) (fun t => t, 0)).1

/-- Embeds `Ncmdump::get_data`: seek to `image.start + image.length`, read to
end of source, obtain the raw key via `get_key`, build the key-box and apply
the keystream cipher over the whole payload. -/
def get_data_st (dec_h : List Nat → Option (List Nat)) (r : Reader) (h : Handle) :
    RunResult (List Nat) × Reader :=
  let dr := r_read_to_end (r_seek r (h.image.1 + h.image.2))
  let kr := get_key_st dec_h dr.2 h
  match kr.1 with
  | RunResult.panicked => (RunResult.panicked, kr.2)
  | RunResult.err e => (RunResult.err e, kr.2)
  | RunResult.ok key => (RunResult.ok (get_data_core (build_key_box key) dr.1), kr.2)

/-- The position-based keystream cipher as the spec words it (section 4.4): the
byte at absolute payload position `p` (0-based) is XORed with the keystream
byte for `j = (p + 1) mod 256`.  Written with an explicit position counter;
this is the definition the chunked implementation is compared against. -/
def decrypt_audio_from (k : Nat → Nat) : Nat → List Nat → List Nat
  | _, [] => []
  | p, item :: rest =>
    Nat.xor item (keystreamByte k ((p + 1) % 256)) :: decrypt_audio_from k (p + 1) rest

/-- The spec's position-based cipher over a whole payload, positions starting
at 0. -/
def decrypt_audio_spec (k : Nat → Nat) (data : List Nat) : List Nat :=
  decrypt_audio_from k 0 data

theorem xor_xor_cancel (a b : Nat) : Nat.xor (Nat.xor a b) b = a :=
  Nat.xor_cancel_right b a

theorem encryptChunk_enumFrom (k : Nat → Nat) :
    ∀ (l : List Nat) (n : Nat),
      (l.enumFrom n).map (fun p => Nat.xor p.2 (keystreamByte k ((p.1 + 1) % 256))) =
        decrypt_audio_from k n l := by
  intro l
  induction l with
  | nil => intro n; rfl
  | cons x xs ih =>
    intro n
    simp only [List.enumFrom_cons, List.map_cons, decrypt_audio_from]
    rw [ih]

theorem encryptChunk_eq (k : Nat → Nat) (l : List Nat) :
    encryptChunk k l = decrypt_audio_from k 0 l :=
  encryptChunk_enumFrom k l 0

theorem decrypt_audio_from_mod (k : Nat → Nat) :
    ∀ (l : List Nat) (p q : Nat), p % 256 = q % 256 →
      decrypt_audio_from k p l = decrypt_audio_from k q l := by
  intro l
  induction l with
  | nil => intro p q _; rfl
  | cons x xs ih =>
    intro p q h
    have h1 : (p + 1) % 256 = (q + 1) % 256 := by omega
    simp only [decrypt_audio_from]
    rw [h1, ih (p + 1) (q + 1) h1]

theorem decrypt_audio_from_append (k : Nat → Nat) :
    ∀ (a b : List Nat) (p : Nat),
      decrypt_audio_from k p (a ++ b) =
        decrypt_audio_from k p a ++ decrypt_audio_from k (p + a.length) b := by
  intro a
  induction a with
  | nil => intro b p; simp [decrypt_audio_from]
  | cons x xs ih =>
    intro b p
    simp only [List.cons_append, decrypt_audio_from, List.length_cons, List.append_eq]
    rw [ih, show p + (xs.length + 1) = p + 1 + xs.length from by omega]

theorem get_data_core_nil (k : Nat → Nat) : get_data_core k [] = [] := by
  simp [get_data_core, chunks8000]

theorem get_data_core_cons (k : Nat → Nat) (x : Nat) (xs : List Nat) :
    get_data_core k (x :: xs) =
      encryptChunk k ((x :: xs).take 0x8000) ++ get_data_core k ((x :: xs).drop 0x8000) := by
  rw [get_data_core, chunks8000]
  simp [get_data_core]

theorem get_data_core_eq_aux (k : Nat → Nat) :
    ∀ (n : Nat) (data : List Nat), data.length ≤ n →
      get_data_core k data = decrypt_audio_from k 0 data := by
  intro n
  induction n with
  | zero =>
    intro data h
    have hnil : data = [] := List.eq_nil_of_length_eq_zero (Nat.le_zero.mp h)
    subst hnil
    rw [get_data_core_nil]
    rfl
  | succ n ih =>
    intro data h
    match data with
    | [] => rw [get_data_core_nil]; rfl
    | x :: xs =>
      have hdl : ((x :: xs).drop 0x8000).length ≤ n := by
        simp only [List.length_drop, List.length_cons]
        have := h
        simp only [List.length_cons] at this
        omega
      rw [get_data_core_cons, ih _ hdl, encryptChunk_eq]
      conv_rhs => rw [← List.take_append_drop 0x8000 (x :: xs)]
      rw [decrypt_audio_from_append]
      by_cases hle : (x :: xs).length ≤ 0x8000
      · rw [List.drop_eq_nil_iff.mpr hle]
        simp [decrypt_audio_from]
      · have htl : ((x :: xs).take 0x8000).length = 0x8000 := by
          rw [List.length_take]
          omega
        rw [htl]
        rw [decrypt_audio_from_mod k _ (0 + 0x8000) 0 (by decide)]

theorem decrypt_audio_from_invol (k : Nat → Nat) :
    ∀ (l : List Nat) (p : Nat),
      decrypt_audio_from k p (decrypt_audio_from k p l) = l := by
  intro l
  induction l with
  | nil => intro p; rfl
  | cons x xs ih =>
    intro p
    simp only [decrypt_audio_from]
    rw [xor_xor_cancel, ih]

/-- Claim C1: for every ciphertext and every 256-entry key-box, the chunked
keystream computation of `get_data` (0x8000-byte windows, chunk-local index
`j = (index + 1) mod 256`) produces exactly the same output as the spec's
position-based definition in which the byte at absolute payload position `p`
is XORed with the keystream byte for `j = (p + 1) mod 256`; windowing does not
change the output for any payload length. -/
theorem get_data_chunked_eq_positional :
    ∀ (k : Nat → Nat) (data : List Nat),
      get_data_core k data = decrypt_audio_spec k data :=
  fun k data => get_data_core_eq_aux k data.length data le_rfl

/-- Claim C2: for every payload (including the empty payload and payloads
spanning several 0x8000 windows) and every key-box, applying the keystream
cipher of `get_data` twice with the same key-box returns the original payload
byte-for-byte. -/
theorem get_data_cipher_involutive :
    ∀ (k : Nat → Nat) (data : List Nat),
      get_data_core k (get_data_core k data) = data := by
  intro k data
  rw [get_data_core_eq_aux k (get_data_core k data).length _ le_rfl,
    get_data_core_eq_aux k data.length data le_rfl]
  exact decrypt_audio_from_invol k data 0

/-- A metadata record used to instantiate the JSON-parsing oracle in concrete
evaluations. -/
def sampleInfo : NcmInfo :=
  ⟨"", 0, "", [], 0, 0, "", none, none⟩

/-- Claim C6: for every handle on which the read and decrypt steps succeed (the
decrypted plaintext being long enough for the 17-byte strip), `get_key`
returns exactly the result of reading `key.length` bytes at `key.start`,
XORing every byte with `0x64`, ECB-decrypting with the fixed header key, and
dropping the first 17 bytes of the decrypted plaintext. -/
theorem get_key_success_spec :
    ∀ (dec_h : List Nat → Option (List Nat)) (r : Reader) (h : Handle) (pt : List Nat),
      dec_h (((get_bytes r h.key.1 h.key.2).1).map (fun b => Nat.xor b 0x64)) = some pt →
      17 ≤ pt.length →
      (get_key_st dec_h r h).1 = RunResult.ok (pt.drop 17) := by
  intro dec_h r h pt hdec hlen
  simp [get_key_st, get_key_chain, sliceFrom, hdec, hlen]

theorem get_key_success_spec_witness :
    (get_key_st (fun _ => some (List.replicate 17 0)) ⟨[], 0⟩ ⟨(0, 0), (0, 0), (0, 0)⟩).1 =
      RunResult.ok ((List.replicate 17 0).drop 17) :=
  get_key_success_spec (fun _ => some (List.replicate 17 0)) ⟨[], 0⟩ ⟨(0, 0), (0, 0), (0, 0)⟩
    (List.replicate 17 0) rfl (by decide)

/-- Claim C10: `get_key` returns without panicking only when the ECB-decrypted
key-block plaintext is at least 17 bytes long; on an input whose decrypted
plaintext is shorter than 17 bytes the slice `decrypt_buffer[17..]` panics
instead of returning an error. -/
theorem get_key_panics_short_plaintext :
    (∀ (dec_h : List Nat → Option (List Nat)) (r : Reader) (h : Handle) (v : List Nat),
      (get_key_st dec_h r h).1 = RunResult.ok v →
      ∃ pt, dec_h (((get_bytes r h.key.1 h.key.2).1).map (fun b => Nat.xor b 0x64)) = some pt ∧
        17 ≤ pt.length) ∧
    (get_key_st (fun _ => some [0]) ⟨[], 0⟩ ⟨(0, 0), (0, 0), (0, 0)⟩).1 =
      RunResult.panicked := by
  constructor
  · intro dec_h r h v hok
    simp only [get_key_st, get_key_chain] at hok
    cases hd : dec_h (((get_bytes r h.key.1 h.key.2).1).map (fun b => Nat.xor b 0x64)) with
    | none => rw [hd] at hok; simp at hok
    | some pt =>
      rw [hd] at hok
      refine ⟨pt, rfl, ?_⟩
      by_cases hl : 17 ≤ pt.length
      · exact hl
      · simp [sliceFrom, hl] at hok
  · rfl

theorem get_key_panics_short_plaintext_witness :
    ∃ pt, (fun _ => some (List.replicate 17 0) : List Nat → Option (List Nat))
        (((get_bytes ⟨[], 0⟩ (⟨(0, 0), (0, 0), (0, 0)⟩ : Handle).key.1
          (⟨(0, 0), (0, 0), (0, 0)⟩ : Handle).key.2).1).map (fun b => Nat.xor b 0x64)) =
        some pt ∧ 17 ≤ pt.length :=
  get_key_panics_short_plaintext.1 (fun _ => some (List.replicate 17 0)) ⟨[], 0⟩
    ⟨(0, 0), (0, 0), (0, 0)⟩ [] rfl

/-- Claim C9: over an unchanging byte source, two calls to `get_key`,
`get_info` or `get_image` return byte-identical results regardless of the
stream position left behind by earlier extraction calls, because each call
first seeks to the absolute recorded start offset. -/
theorem extractors_deterministic :
    ∀ (dec_h b64 dec_i : List Nat → Option (List Nat)) (u8 : List Nat → Option String)
      (js : String → Option NcmInfo) (r r' : Reader) (h : Handle),
      r.src = r'.src →
      (get_key_st dec_h r h).1 = (get_key_st dec_h r' h).1 ∧
      (get_info_st b64 dec_i u8 js r h).1 = (get_info_st b64 dec_i u8 js r' h).1 ∧
      (get_image_st r h).1 = (get_image_st r' h).1 := by
  intro dec_h b64 dec_i u8 js r r' h hsrc
  refine ⟨?_, ?_, ?_⟩ <;>
    simp [get_key_st, get_info_st, get_image_st, get_bytes, r_take_read, r_seek, hsrc]

theorem extractors_deterministic_witness :
    (get_key_st (fun _ => none) ⟨[1, 2, 3], 0⟩ ⟨(0, 1), (1, 1), (2, 1)⟩).1 =
      (get_key_st (fun _ => none) ⟨[1, 2, 3], 2⟩ ⟨(0, 1), (1, 1), (2, 1)⟩).1 ∧
    (get_info_st (fun _ => none) (fun _ => none) (fun _ => none) (fun _ => none)
        ⟨[1, 2, 3], 0⟩ ⟨(0, 1), (1, 1), (2, 1)⟩).1 =
      (get_info_st (fun _ => none) (fun _ => none) (fun _ => none) (fun _ => none)
        ⟨[1, 2, 3], 2⟩ ⟨(0, 1), (1, 1), (2, 1)⟩).1 ∧
    (get_image_st ⟨[1, 2, 3], 0⟩ ⟨(0, 1), (1, 1), (2, 1)⟩).1 =
      (get_image_st ⟨[1, 2, 3], 2⟩ ⟨(0, 1), (1, 1), (2, 1)⟩).1 :=
  extractors_deterministic (fun _ => none) (fun _ => none) (fun _ => none) (fun _ => none)
    (fun _ => none) ⟨[1, 2, 3], 0⟩ ⟨[1, 2, 3], 2⟩ ⟨(0, 1), (1, 1), (2, 1)⟩ rfl

/-- Claim C3 counterexample: with a metadata block that base64-decodes fine and
a block-cipher primitive that rejects the decoded ciphertext, `get_info` fails
with the decrypt primitive's own error kind, not with `InfoDecodeError`. -/
theorem get_info_decrypt_failure_not_info_decode :
    get_info_chain (fun _ => some []) (fun _ => none) (fun _ => none) (fun _ => none)
        (List.replicate 22 0) = RunResult.err Errors.DecryptError ∧
      get_info_chain (fun _ => some []) (fun _ => none) (fun _ => none) (fun _ => none)
        (List.replicate 22 0) ≠ RunResult.err Errors.InfoDecodeError := by
  constructor
  · rfl
  · decide

/-- Claim C3 amended: whenever the block-cipher primitive rejects the
base64-decoded metadata ciphertext in `get_info`, the call fails with the
decrypt primitive's own error kind (the generic decryption failure,
propagated unmapped), not with `InfoDecodeError`. -/
theorem get_info_decrypt_failure_decrypt_error :
    ∀ (b64 dec_i : List Nat → Option (List Nat)) (u8 : List Nat → Option String)
      (js : String → Option NcmInfo) (info_bytes dk : List Nat),
      22 ≤ info_bytes.length →
      b64 ((info_bytes.map (fun b => Nat.xor b 0x63)).drop 22) = some dk →
      dec_i dk = none →
      get_info_chain b64 dec_i u8 js info_bytes = RunResult.err Errors.DecryptError := by
  intro b64 dec_i u8 js info_bytes dk hlen hb hd
  have hlen' : 22 ≤ (info_bytes.map (fun b => Nat.xor b 0x63)).length := by simpa using hlen
  simp [get_info_chain, sliceFrom, hlen, hlen', hb, hd]

theorem get_info_decrypt_failure_decrypt_error_witness :
    get_info_chain (fun _ => some [1]) (fun _ => none) (fun _ => none) (fun _ => none)
        (List.replicate 22 0) = RunResult.err Errors.DecryptError :=
  get_info_decrypt_failure_decrypt_error (fun _ => some [1]) (fun _ => none) (fun _ => none)
    (fun _ => none) (List.replicate 22 0) [1] (by decide) rfl rfl

/-- Claim C4 counterexample: on an empty metadata block the slice
`info_tmp[22..]` in `get_info` panics instead of yielding `InfoDecodeError`. -/
theorem get_info_short_block_panics :
    get_info_chain (fun _ => none) (fun _ => none) (fun _ => none) (fun _ => none) [] =
      RunResult.panicked := rfl

/-- Claim C4 amended: provided the metadata block is at least 22 bytes long and
every plaintext produced by the block-cipher primitive is at least 6 bytes
long, the metadata decode chain of `get_info` never panics, and malformed
base64, invalid UTF-8 and an ill-shaped metadata record each yield
`InfoDecodeError`; a metadata block shorter than the 22-byte skipped prefix
(or a decrypted plaintext shorter than the 6-byte skipped prefix) panics
instead. -/
theorem get_info_no_panic_when_long_enough :
    ∀ (b64 dec_i : List Nat → Option (List Nat)) (u8 : List Nat → Option String)
      (js : String → Option NcmInfo) (info_bytes : List Nat),
      22 ≤ info_bytes.length →
      (∀ s t, dec_i s = some t → 6 ≤ t.length) →
      get_info_chain b64 dec_i u8 js info_bytes ≠ RunResult.panicked ∧
      (b64 ((info_bytes.map (fun b => Nat.xor b 0x63)).drop 22) = none →
        get_info_chain b64 dec_i u8 js info_bytes = RunResult.err Errors.InfoDecodeError) ∧
      (∀ dk pd, b64 ((info_bytes.map (fun b => Nat.xor b 0x63)).drop 22) = some dk →
        dec_i dk = some pd → u8 (pd.drop 6) = none →
        get_info_chain b64 dec_i u8 js info_bytes = RunResult.err Errors.InfoDecodeError) ∧
      (∀ dk pd s, b64 ((info_bytes.map (fun b => Nat.xor b 0x63)).drop 22) = some dk →
        dec_i dk = some pd → u8 (pd.drop 6) = some s → js s = none →
        get_info_chain b64 dec_i u8 js info_bytes = RunResult.err Errors.InfoDecodeError) := by
  intro b64 dec_i u8 js info_bytes hlen hdec
  have hlen' : 22 ≤ (info_bytes.map (fun b => Nat.xor b 0x63)).length := by simpa using hlen
  refine ⟨?_, ?_, ?_, ?_⟩
  · cases hb : b64 ((info_bytes.map (fun b => Nat.xor b 0x63)).drop 22) with
    | none => simp [get_info_chain, sliceFrom, hlen, hlen', hb]
    | some dk =>
      cases hd : dec_i dk with
      | none => simp [get_info_chain, sliceFrom, hlen, hlen', hb, hd]
      | some pd =>
        have h6 : 6 ≤ pd.length := hdec dk pd hd
        cases hu : u8 (pd.drop 6) with
        | none => simp [get_info_chain, sliceFrom, hlen, hlen', hb, hd, h6, hu]
        | some s =>
          cases hj : js s with
          | none => simp [get_info_chain, sliceFrom, hlen, hlen', hb, hd, h6, hu, hj]
          | some info => simp [get_info_chain, sliceFrom, hlen, hlen', hb, hd, h6, hu, hj]
  · intro hb
    simp [get_info_chain, sliceFrom, hlen, hlen', hb]
  · intro dk pd hb hd hu
    have h6 : 6 ≤ pd.length := hdec dk pd hd
    simp [get_info_chain, sliceFrom, hlen, hlen', hb, hd, h6, hu]
  · intro dk pd s hb hd hu hj
    have h6 : 6 ≤ pd.length := hdec dk pd hd
    simp [get_info_chain, sliceFrom, hlen, hlen', hb, hd, h6, hu, hj]

theorem get_info_no_panic_when_long_enough_witness :
    get_info_chain (fun _ => none) (fun _ => some (List.replicate 6 0)) (fun _ => none)
        (fun _ => none) (List.replicate 22 0) ≠ RunResult.panicked :=
  (get_info_no_panic_when_long_enough (fun _ => none) (fun _ => some (List.replicate 6 0))
    (fun _ => none) (fun _ => none) (List.replicate 22 0) (by decide)
    (fun s t ht => by have h := Option.some_inj.mp ht; rw [← h]; decide)).1

/-- Claim C7: for every handle on which all stages succeed, `get_info` performs
exactly this chain in this order: read `info.length` bytes at `info.start`,
XOR every byte with `0x63`, skip the first 22 bytes, base64-decode the
remainder, ECB-decrypt the decoded bytes with the fixed info key, skip the
first 6 bytes of the plaintext, decode the remainder as UTF-8 and parse it as
the structured metadata record. -/
theorem get_info_success_spec :
    ∀ (b64 dec_i : List Nat → Option (List Nat)) (u8 : List Nat → Option String)
      (js : String → Option NcmInfo) (r : Reader) (h : Handle)
      (dk pd : List Nat) (s : String) (info : NcmInfo),
      22 ≤ (get_bytes r h.info.1 h.info.2).1.length →
      b64 ((((get_bytes r h.info.1 h.info.2).1).map (fun b => Nat.xor b 0x63)).drop 22) =
        some dk →
      dec_i dk = some pd →
      6 ≤ pd.length →
      u8 (pd.drop 6) = some s →
      js s = some info →
      (get_info_st b64 dec_i u8 js r h).1 = RunResult.ok info := by
  intro b64 dec_i u8 js r h dk pd s info hlen hb hd h6 hu hj
  have hlen' : 22 ≤ ((get_bytes r h.info.1 h.info.2).1.map (fun b => Nat.xor b 0x63)).length := by
    simpa using hlen
  simp [get_info_st, get_info_chain, sliceFrom, hlen, hlen', hb, hd, h6, hu, hj]

theorem get_info_success_spec_witness :
    (get_info_st (fun _ => some [9]) (fun _ => some (List.replicate 6 0)) (fun _ => some "")
        (fun _ => some sampleInfo) ⟨List.replicate 22 0, 0⟩ ⟨(0, 0), (0, 22), (0, 0)⟩).1 =
      RunResult.ok sampleInfo :=
  get_info_success_spec (fun _ => some [9]) (fun _ => some (List.replicate 6 0))
    (fun _ => some "") (fun _ => some sampleInfo) ⟨List.replicate 22 0, 0⟩
    ⟨(0, 0), (0, 22), (0, 0)⟩ [9] (List.replicate 6 0) "" sampleInfo
    (by decide) rfl rfl (by decide) rfl rfl

theorem get_data_st_payload (dec_h : List Nat → Option (List Nat)) (src : List Nat)
    (p : Nat) (h : Handle) (v : List Nat)
    (hk : (get_key_st dec_h ⟨src, p⟩ h).1 = RunResult.ok v) :
    (get_data_st dec_h ⟨src, p⟩ h).1 =
      RunResult.ok (get_data_core (build_key_box v) (src.drop (h.image.1 + h.image.2))) := by
  have hk' : (get_key_st dec_h ⟨src, src.length⟩ h).1 = RunResult.ok v := hk
  simp only [get_data_st, r_read_to_end, r_seek]
  rw [hk']

/-- Claim C5: after a successful `from_reader` on a source read from position 0,
`key.start = 14`, `key.length` is the native-endian `u32` decoded from bytes
10..14, `info.start = key.start + key.length + 4`,
`image.start = info.start + info.length + 9 + 4`; construction leaves the
stream at `image.start`, so the image block is not read or seeked past; and
`get_data` reads the audio payload from `image.start + image.length` to
end-of-source. -/
theorem from_reader_offsets :
    ∀ (src : List Nat) (h : Handle) (r' : Reader)
      (dec_h : List Nat → Option (List Nat)) (p : Nat) (v : List Nat),
      from_reader ⟨src, 0⟩ = Except.ok (h, r') →
      (get_key_st dec_h ⟨src, p⟩ h).1 = RunResult.ok v →
      h.key.1 = 14 ∧
      h.key.2 = u64_from_le_bytes ((src.drop 10).take 4) ∧
      h.info.1 = h.key.1 + h.key.2 + 4 ∧
      h.image.1 = h.info.1 + h.info.2 + 9 + 4 ∧
      r'.src = src ∧ r'.pos = h.image.1 ∧
      (get_data_st dec_h ⟨src, p⟩ h).1 =
        RunResult.ok (get_data_core (build_key_box v) (src.drop (h.image.1 + h.image.2))) := by
  intro src h r' dec_h p v hok hkey
  simp only [from_reader, r_take_read, r_seek_cur, List.drop_zero, Nat.zero_add] at hok
  split_ifs at hok with h1 h2 h3 h4
  · obtain ⟨h1a, _⟩ := h1
    rw [h1a] at hok h2 h3 h4
    rw [h2] at hok h3 h4
    rw [h3] at hok h4
    rw [h4] at hok
    rw [Except.ok.injEq, Prod.mk.injEq] at hok
    obtain ⟨hh, hr⟩ := hok
    subst hh
    subst hr
    refine ⟨rfl, ?_, ?_, ?_, rfl, rfl, get_data_st_payload dec_h src p _ v hkey⟩
    · simp [get_length, List.take_take]
    · rfl
    · rfl

/-- A 32-byte well-formed container: magic header, 2 reserved bytes, a 1-byte
key block, an empty metadata block, the 9-byte gap and an empty image block. -/
def src0 : List Nat :=
  [0x43, 0x54, 0x45, 0x4e, 0x46, 0x44, 0x41, 0x4d, 0, 0,
    1, 0, 0, 0, 7, 0, 0, 0, 0, 1, 2, 3, 4, 5, 6, 7, 8, 9, 0, 0, 0, 0]

theorem from_reader_offsets_witness :
    (⟨(14, 1), (19, 0), (32, 0)⟩ : Handle).key.1 = 14 ∧
    (⟨(14, 1), (19, 0), (32, 0)⟩ : Handle).key.2 =
      u64_from_le_bytes ((src0.drop 10).take 4) ∧
    (⟨(14, 1), (19, 0), (32, 0)⟩ : Handle).info.1 =
      (⟨(14, 1), (19, 0), (32, 0)⟩ : Handle).key.1 +
        (⟨(14, 1), (19, 0), (32, 0)⟩ : Handle).key.2 + 4 ∧
    (⟨(14, 1), (19, 0), (32, 0)⟩ : Handle).image.1 =
      (⟨(14, 1), (19, 0), (32, 0)⟩ : Handle).info.1 +
        (⟨(14, 1), (19, 0), (32, 0)⟩ : Handle).info.2 + 9 + 4 ∧
    (⟨src0, 32⟩ : Reader).src = src0 ∧
    (⟨src0, 32⟩ : Reader).pos = (⟨(14, 1), (19, 0), (32, 0)⟩ : Handle).image.1 ∧
    (get_data_st (fun _ => some (List.replicate 17 0)) ⟨src0, 0⟩
        ⟨(14, 1), (19, 0), (32, 0)⟩).1 =
      RunResult.ok (get_data_core (build_key_box [])
        (src0.drop ((⟨(14, 1), (19, 0), (32, 0)⟩ : Handle).image.1 +
          (⟨(14, 1), (19, 0), (32, 0)⟩ : Handle).image.2))) :=
  from_reader_offsets src0 ⟨(14, 1), (19, 0), (32, 0)⟩ ⟨src0, 32⟩
    (fun _ => some (List.replicate 17 0)) 0 [] rfl rfl

/-- Proof helper: the handle computed by `from_reader` from position 0, as a
function of the 10-byte header and the remainder of the source. -/
def fr_pure (hdr tail : List Nat) : Except Errors Handle :=
  if hdr.length = 10 ∧ check_format hdr = true then
    if (tail.take 4).length = 4 then
      let kl := get_length (tail.take 4)
      if ((tail.drop (4 + kl)).take 4).length = 4 then
        let il := get_length ((tail.drop (4 + kl)).take 4)
        if (((tail.drop (4 + kl)).drop (4 + il + 9)).take 4).length = 4 then
          Except.ok ⟨(14, kl), (14 + kl + 4, il), (14 + kl + 4 + il + 9 + 4,
            get_length (((tail.drop (4 + kl)).drop (4 + il + 9)).take 4))⟩
        else Except.error Errors.InvalidImageLength
      else Except.error Errors.InvalidInfoLength
    else Except.error Errors.InvalidKeyLength
  else Except.error Errors.InvalidFileType

theorem from_reader_fst (l : List Nat) :
    (from_reader ⟨l, 0⟩).map Prod.fst = fr_pure (l.take 10) (l.drop 10) := by
  simp only [from_reader, fr_pure, r_take_read, r_seek_cur, List.drop_zero, Nat.zero_add]
  by_cases h1 : (l.take 10).length = 10 ∧ check_format (l.take 10) = true
  · rw [if_pos h1, if_pos h1, h1.1]
    by_cases h2 : ((l.drop 10).take 4).length = 4
    · rw [if_pos h2, if_pos h2, h2]
      have hd1 : (l.drop 10).drop (4 + get_length ((l.drop 10).take 4)) =
          l.drop (10 + 4 + get_length ((l.drop 10).take 4)) := by
        rw [List.drop_drop]
        congr 1
        omega
      rw [← hd1]
      by_cases h3 : (((l.drop 10).drop (4 + get_length ((l.drop 10).take 4))).take 4).length = 4
      · rw [if_pos h3, if_pos h3, h3]
        have hd2 : ((l.drop 10).drop (4 + get_length ((l.drop 10).take 4))).drop
              (4 + get_length (((l.drop 10).drop (4 + get_length ((l.drop 10).take 4))).take 4) + 9) =
            l.drop (10 + 4 + get_length ((l.drop 10).take 4) + 4 +
              get_length (((l.drop 10).drop (4 + get_length ((l.drop 10).take 4))).take 4) + 9) := by
          rw [List.drop_drop, List.drop_drop]
          congr 1
          omega
        rw [← hd2]
        by_cases h4 : ((((l.drop 10).drop (4 + get_length ((l.drop 10).take 4))).drop
            (4 + get_length (((l.drop 10).drop (4 + get_length ((l.drop 10).take 4))).take 4) + 9)).take
              4).length = 4
        · rw [if_pos h4, if_pos h4, h4]
          simp [Except.map]
        · rw [if_neg h4, if_neg h4]
          rfl
      · rw [if_neg h3, if_neg h3]
        rfl
    · rw [if_neg h2, if_neg h2]
      rfl
  · rw [if_neg h1, if_neg h1]
    rfl

theorem fr_pure_congr (h1 h2 t : List Nat) (hl : h1.length = h2.length)
    (hc : check_format h1 = check_format h2) : fr_pure h1 t = fr_pure h2 t := by
  unfold fr_pure
  rw [hl, hc]

/-- Claim C8: `from_reader` fails with `InvalidFileType` whenever the initial
read yields fewer than 10 bytes or the first 8 bytes, as a native-endian
64-bit integer, differ from the magic constant; and the remaining 2 of the 10
header bytes are skipped without being interpreted (changing them changes
neither the outcome nor the recorded section descriptors). -/
theorem from_reader_invalid_file_type :
    (∀ src : List Nat,
      src.length < 10 ∨ u64_from_le_bytes (src.take 8) ≠ 0x4d4144464e455443 →
      from_reader ⟨src, 0⟩ = Except.error Errors.InvalidFileType) ∧
    (∀ (hdr rest : List Nat) (b1 b2 b1' b2' : Nat), hdr.length = 8 →
      (from_reader ⟨hdr ++ b1 :: b2 :: rest, 0⟩).map Prod.fst =
        (from_reader ⟨hdr ++ b1' :: b2' :: rest, 0⟩).map Prod.fst) := by
  constructor
  · intro src hsrc
    simp only [from_reader, r_take_read, List.drop_zero, Nat.zero_add]
    rw [if_neg]
    intro hcon
    obtain ⟨ha, hb⟩ := hcon
    rw [List.length_take] at ha
    rcases hsrc with hlen | hmag
    · omega
    · apply hmag
      have hcf : check_format (src.take 10) = true := hb
      simp only [check_format, List.take_take, beq_iff_eq] at hcf
      simpa using hcf
  · intro hdr rest b1 b2 b1' b2' hh
    rw [from_reader_fst, from_reader_fst]
    have t1 : (hdr ++ b1 :: b2 :: rest).take 10 = hdr ++ [b1, b2] := by
      rw [show 10 = hdr.length + 2 from by omega, List.take_append]
      rfl
    have t1' : (hdr ++ b1' :: b2' :: rest).take 10 = hdr ++ [b1', b2'] := by
      rw [show 10 = hdr.length + 2 from by omega, List.take_append]
      rfl
    have d1 : (hdr ++ b1 :: b2 :: rest).drop 10 = rest := by
      rw [show 10 = hdr.length + 2 from by omega, List.drop_append]
      rfl
    have d1' : (hdr ++ b1' :: b2' :: rest).drop 10 = rest := by
      rw [show 10 = hdr.length + 2 from by omega, List.drop_append]
      rfl
    rw [t1, t1', d1, d1']
    apply fr_pure_congr
    · simp
    · simp only [check_format]
      rw [List.take_left' hh, List.take_left' hh]

theorem from_reader_invalid_file_type_witness :
    from_reader ⟨[1, 2, 3], 0⟩ = Except.error Errors.InvalidFileType ∧
    (from_reader ⟨[0x43, 0x54, 0x45, 0x4e, 0x46, 0x44, 0x41, 0x4d] ++ 0 :: 0 :: [], 0⟩).map
        Prod.fst =
      (from_reader ⟨[0x43, 0x54, 0x45, 0x4e, 0x46, 0x44, 0x41, 0x4d] ++ 5 :: 7 :: [], 0⟩).map
        Prod.fst :=
  ⟨from_reader_invalid_file_type.1 [1, 2, 3] (Or.inl (by decide)),
    from_reader_invalid_file_type.2 [0x43, 0x54, 0x45, 0x4e, 0x46, 0x44, 0x41, 0x4d] []
      0 0 5 7 rfl⟩

end Ncm
